import Mathlib

/-!
Shallow embedding of the resource/upgrade economy engine of
src/src/systems/ResourceManager.ts (class ResourceManager).

Numbers are modelled as rationals. The mutable `purchased` booleans of the
upgrade catalog are kept in a separate structure `UpgradeFlags` with one field
per catalog node (the catalog definitions themselves are immutable); each
catalog node carries its flag accessor. localStorage is modelled as an
`Option SaveData` slot carried in the game state.
-/

structure Resources where
  metal : ℚ
  crystal : ℚ
  deriving DecidableEq, Repr

structure ResourceRates where
  metalRate : ℚ
  crystalRate : ℚ
  deriving DecidableEq, Repr

structure PlayerStats where
  shipSpeed : ℚ
  collectionRadius : ℚ
  autoCollectChance : ℚ
  miningSpeed : ℚ
  miningPower : ℚ
  attackRange : ℚ
  attackPower : ℚ
  multiAttack : ℚ
  deriving DecidableEq, Repr

/-- The `purchased` booleans of the eight catalog nodes, one field per node. -/
structure UpgradeFlags where
  ship_core : Bool
  basic_attack_range : Bool
  improved_attack_range : Bool
  superior_attack_range : Bool
  basic_multi_target : Bool
  improved_multi_target : Bool
  superior_multi_target : Bool
  attack_mastery : Bool
  deriving DecidableEq, Repr

/-- One catalog entry: `ShipUpgrade` of the source, minus presentation-only
fields (name, description, children, treePosition, icon). The mutable
`purchased` boolean lives in `UpgradeFlags`; `getPurchased`/`setPurchased` are
the node's accessors into it. -/
structure ShipUpgrade where
  id : String
  cost : Resources
  effect : Resources → ResourceRates → PlayerStats → Resources × ResourceRates × PlayerStats
  requires : List String
  getPurchased : UpgradeFlags → Bool
  setPurchased : Bool → UpgradeFlags → UpgradeFlags

def shipCore : ShipUpgrade where
  id := "ship_core"
  cost := ⟨0, 0⟩
  effect := fun r ra st => (r, ra, st)
  requires := []
  getPurchased := fun f => f.ship_core
  setPurchased := fun b f => { f with ship_core := b }

def basicAttackRange : ShipUpgrade where
  id := "basic_attack_range"
  cost := ⟨15, 10⟩
  effect := fun r ra st => (r, ra, { st with attackRange := st.attackRange * (3/2) })
  requires := ["ship_core"]
  getPurchased := fun f => f.basic_attack_range
  setPurchased := fun b f => { f with basic_attack_range := b }

def improvedAttackRange : ShipUpgrade where
  id := "improved_attack_range"
  cost := ⟨40, 25⟩
  effect := fun r ra st => (r, ra, { st with attackRange := st.attackRange * 2 })
  requires := ["basic_attack_range"]
  getPurchased := fun f => f.improved_attack_range
  setPurchased := fun b f => { f with improved_attack_range := b }

def superiorAttackRange : ShipUpgrade where
  id := "superior_attack_range"
  cost := ⟨100, 75⟩
  effect := fun r ra st => (r, ra, { st with attackRange := st.attackRange * 3 })
  requires := ["improved_attack_range"]
  getPurchased := fun f => f.superior_attack_range
  setPurchased := fun b f => { f with superior_attack_range := b }

def basicMultiTarget : ShipUpgrade where
  id := "basic_multi_target"
  cost := ⟨20, 15⟩
  effect := fun r ra st => (r, ra, { st with multiAttack := 2 })
  requires := ["ship_core"]
  getPurchased := fun f => f.basic_multi_target
  setPurchased := fun b f => { f with basic_multi_target := b }

def improvedMultiTarget : ShipUpgrade where
  id := "improved_multi_target"
  cost := ⟨60, 45⟩
  effect := fun r ra st => (r, ra, { st with multiAttack := 4 })
  requires := ["basic_multi_target"]
  getPurchased := fun f => f.improved_multi_target
  setPurchased := fun b f => { f with improved_multi_target := b }

def superiorMultiTarget : ShipUpgrade where
  id := "superior_multi_target"
  cost := ⟨150, 120⟩
  effect := fun r ra st => (r, ra, { st with multiAttack := 8 })
  requires := ["improved_multi_target"]
  getPurchased := fun f => f.superior_multi_target
  setPurchased := fun b f => { f with superior_multi_target := b }

def attackMastery : ShipUpgrade where
  id := "attack_mastery"
  cost := ⟨300, 250⟩
  effect := fun r ra st =>
    (r, ra, { st with attackRange := st.attackRange * (3/2),
                      multiAttack := st.multiAttack * 2,
                      attackPower := st.attackPower * 2 })
  requires := ["superior_attack_range", "superior_multi_target"]
  getPurchased := fun f => f.attack_mastery
  setPurchased := fun b f => { f with attack_mastery := b }

/-- The catalog, in the order of the `upgrades` array of the source. -/
def upgradeList : List ShipUpgrade :=
  [shipCore, basicAttackRange, improvedAttackRange, superiorAttackRange,
   basicMultiTarget, improvedMultiTarget, superiorMultiTarget, attackMastery]

/-- Initial purchased flags: `ship_core` starts `purchased: true` in the
source catalog; every other node starts false. -/
def initFlags : UpgradeFlags :=
  ⟨true, false, false, false, false, false, false, false⟩

def defaultRates : ResourceRates := ⟨1/2, 1/5⟩

def defaultStats : PlayerStats := ⟨200, 0, 0, 1, 1, 100, 1, 1⟩

/-- The shape saved to localStorage by `saveGame`. -/
structure SaveData where
  resources : Resources
  rates : ResourceRates
  playerStats : PlayerStats
  upgrades : List (String × Bool)
  deriving DecidableEq, Repr

/-- Full mutable state of a `ResourceManager` instance plus the localStorage
slot idleGameSave it reads and writes. -/
structure GameState where
  resources : Resources
  rates : ResourceRates
  playerStats : PlayerStats
  flags : UpgradeFlags
  lastSaveTime : ℚ
  store : Option SaveData
  deriving DecidableEq, Repr

inductive ResourceKind where
  | metal
  | crystal
  deriving DecidableEq, Repr

/-- `addResource`: adds the amount unconditionally (the source only checks
that the key is one of the two resource kinds, which the type guarantees). -/
def addResource (k : ResourceKind) (amount : ℚ) (s : GameState) : GameState :=
  match k with
  | .metal => { s with resources := { s.resources with metal := s.resources.metal + amount } }
  | .crystal => { s with resources := { s.resources with crystal := s.resources.crystal + amount } }

/-- Lookup `this.upgrades.find(u => u.id === id)`. -/
def findUpgrade (id : String) : Option ShipUpgrade :=
  upgradeList.find? (fun u => u.id == id)

/-- `requiredUpgrade?.purchased === true` for a required id: false when the id
is not in the catalog. -/
def flagOf (f : UpgradeFlags) (rid : String) : Bool :=
  match findUpgrade rid with
  | some u => u.getPurchased f
  | none => false

/-- The requirement check shared by `canAffordUpgrade` and `purchaseUpgrade`:
`upgrade.requires.every(requiredId => ...purchased === true)`. The source
skips the check when `requires` is absent or empty, which coincides with
`List.all` on the empty list. -/
def reqsMet (f : UpgradeFlags) (u : ShipUpgrade) : Bool :=
  u.requires.all (flagOf f)

def canAffordUpgrade (id : String) (s : GameState) : Bool :=
  match findUpgrade id with
  | none => false
  | some u =>
    reqsMet s.flags u &&
      decide (u.cost.metal ≤ s.resources.metal) &&
      decide (u.cost.crystal ≤ s.resources.crystal)

/-- `purchaseUpgrade`: returns the new state and the boolean result. -/
def purchaseUpgrade (id : String) (s : GameState) : GameState × Bool :=
  match findUpgrade id with
  | none => (s, false)
  | some u =>
    if u.getPurchased s.flags then (s, false)
    else if !reqsMet s.flags u then (s, false)
    else if !canAffordUpgrade id s then (s, false)
    else
      let r1 : Resources := ⟨s.resources.metal - u.cost.metal,
                             s.resources.crystal - u.cost.crystal⟩
      let t := u.effect r1 s.rates s.playerStats
      ({ s with resources := t.1, rates := t.2.1, playerStats := t.2.2,
                flags := u.setPurchased true s.flags }, true)

/-- The id/purchased pairs `saveGame` serializes, in catalog order. -/
def flagsList (f : UpgradeFlags) : List (String × Bool) :=
  upgradeList.map (fun u => (u.id, u.getPurchased f))

def saveGame (s : GameState) : GameState :=
  { s with store := some ⟨s.resources, s.rates, s.playerStats, flagsList s.flags⟩ }

/-- One step of `parsedData.upgrades.forEach(...)` in `loadGame`: find the
matching catalog node, set its purchased flag to the saved value, and when the
saved value is true re-apply the node's effect. -/
def applySavedUpgrade (s : GameState) (e : String × Bool) : GameState :=
  match findUpgrade e.1 with
  | none => s
  | some u =>
    let s1 := { s with flags := u.setPurchased e.2 s.flags }
    if e.2 then
      let t := u.effect s1.resources s1.rates s1.playerStats
      { s1 with resources := t.1, rates := t.2.1, playerStats := t.2.2 }
    else s1

/-- `loadGame`: no-op when the slot is empty; otherwise restore resources,
rates and stats verbatim, then walk the saved upgrade entries. -/
def loadGame (s : GameState) : GameState :=
  match s.store with
  | none => s
  | some d =>
    let s1 := { s with resources := d.resources, rates := d.rates,
                       playerStats := d.playerStats }
    d.upgrades.foldl applySavedUpgrade s1

/-- `resetGame`: clears the slot and restores hardcoded defaults; the source
does not reset `lastSaveTime`. -/
def resetGame (s : GameState) : GameState :=
  { resources := ⟨0, 0⟩, rates := defaultRates, playerStats := defaultStats,
    flags := ⟨false, false, false, false, false, false, false, false⟩,
    lastSaveTime := s.lastSaveTime, store := none }

def autosaveInterval : ℚ := 30000

/-- `update(deltaTime)`: accrue `rate * deltaSeconds` (deltaTime is in ms),
then autosave when 30 s of game time have accumulated. -/
def update (dt : ℚ) (s : GameState) : GameState :=
  let ds := dt / 1000
  let s1 := { s with
    resources := ⟨s.resources.metal + s.rates.metalRate * ds,
                  s.resources.crystal + s.rates.crystalRate * ds⟩,
    lastSaveTime := s.lastSaveTime + dt }
  if autosaveInterval ≤ s1.lastSaveTime then { saveGame s1 with lastSaveTime := 0 }
  else s1

inductive StatName where
  | shipSpeed
  | collectionRadius
  | autoCollectChance
  | miningSpeed
  | miningPower
  | attackRange
  | attackPower
  | multiAttack
  deriving DecidableEq, Repr

def getStat (n : StatName) (st : PlayerStats) : ℚ :=
  match n with
  | .shipSpeed => st.shipSpeed
  | .collectionRadius => st.collectionRadius
  | .autoCollectChance => st.autoCollectChance
  | .miningSpeed => st.miningSpeed
  | .miningPower => st.miningPower
  | .attackRange => st.attackRange
  | .attackPower => st.attackPower
  | .multiAttack => st.multiAttack

def writeStat (n : StatName) (v : ℚ) (st : PlayerStats) : PlayerStats :=
  match n with
  | .shipSpeed => { st with shipSpeed := v }
  | .collectionRadius => { st with collectionRadius := v }
  | .autoCollectChance => { st with autoCollectChance := v }
  | .miningSpeed => { st with miningSpeed := v }
  | .miningPower => { st with miningPower := v }
  | .attackRange => { st with attackRange := v }
  | .attackPower => { st with attackPower := v }
  | .multiAttack => { st with multiAttack := v }

/-- `setPlayerStat(statName, value)`: plain assignment, no clamping. -/
def setPlayerStat (n : StatName) (v : ℚ) (s : GameState) : GameState :=
  { s with playerStats := writeStat n v s.playerStats }

/-- `upgradeAutoCollectChance(amount)`: add, then cap at 1 (no lower bound). -/
def upgradeAutoCollectChance (amount : ℚ) (s : GameState) : GameState :=
  let c := s.playerStats.autoCollectChance + amount
  { s with playerStats :=
      { s.playerStats with autoCollectChance := if 1 < c then 1 else c } }

/-- The constructor: zero resources and default rates/stats, `loadGame()`,
then the unconditional testing overwrite `metal = 500; crystal = 500`. -/
def mkResourceManager (store : Option SaveData) : GameState :=
  let s0 : GameState :=
    { resources := ⟨0, 0⟩, rates := defaultRates, playerStats := defaultStats,
      flags := initFlags, lastSaveTime := 0, store := store }
  let s1 := loadGame s0
  { s1 with resources := ⟨500, 500⟩ }

/-- The state after constructing a `ResourceManager` with empty storage. -/
def initialState : GameState := mkResourceManager none

/-- The core operations the spec's reachability claims quantify over. -/
inductive Op where
  | update (dt : ℚ)
  | addResource (k : ResourceKind) (amount : ℚ)
  | purchase (id : String)
  | save
  | load
  | reset

def applyOp (s : GameState) : Op → GameState
  | .update dt => update dt s
  | .addResource k a => addResource k a s
  | .purchase id => (purchaseUpgrade id s).1
  | .save => saveGame s
  | .load => loadGame s
  | .reset => resetGame s

def runOps (s : GameState) (ops : List Op) : GameState := ops.foldl applyOp s

/-- A sequence of tick calls (`update` with each delta in turn). -/
def runTicks (dts : List ℚ) (s : GameState) : GameState :=
  dts.foldl (fun a d => update d a) s

/-- Restriction on an operation under which the non-negativity invariant can
hold: non-negative accrual deltas and non-negative addResource amounts. -/
def goodOp : Op → Bool
  | .update dt => decide (0 ≤ dt)
  | .addResource _ a => decide (0 ≤ a)
  | _ => true

/-- Non-negativity of the resource amounts and rates of a state, including
those recorded in the persisted slot. -/
def NonNegState (s : GameState) : Prop :=
  0 ≤ s.resources.metal ∧ 0 ≤ s.resources.crystal ∧
  0 ≤ s.rates.metalRate ∧ 0 ≤ s.rates.crystalRate ∧
  ∀ d, s.store = some d →
    0 ≤ d.resources.metal ∧ 0 ≤ d.resources.crystal ∧
    0 ≤ d.rates.metalRate ∧ 0 ≤ d.rates.crystalRate

/-- The prerequisite invariant on the purchased flags: every purchased node
has all of its required nodes purchased. -/
def flagInvB (f : UpgradeFlags) : Bool :=
  upgradeList.all (fun u => !u.getPurchased f || reqsMet f u)

/-- The persisted upgrade entries are a full catalog dump of some flag
assignment satisfying the prerequisite invariant (which is what `saveGame`
always writes). -/
def SnapFlagsOK (d : SaveData) : Prop :=
  ∃ g, d.upgrades = flagsList g ∧ flagInvB g = true

def FlagInvState (s : GameState) : Prop :=
  flagInvB s.flags = true ∧ ∀ d, s.store = some d → SnapFlagsOK d

/-- One replay step: apply the node's effect when the flag assignment `g`
marks it purchased, otherwise keep the accumulator. -/
def applyEntry (g : UpgradeFlags) (acc : Resources × ResourceRates × PlayerStats)
    (u : ShipUpgrade) : Resources × ResourceRates × PlayerStats :=
  if u.getPurchased g then u.effect acc.1 acc.2.1 acc.2.2 else acc

/-- Modelled from the spec: the replay step of the load contract — for each
catalog node marked purchased, in catalog order, apply its effect function to
the restored resources/rates/stats. Compared below with what the embedded
`loadGame` actually does. -/
def replayPurchasedEffects (g : UpgradeFlags) (r : Resources) (ra : ResourceRates)
    (st : PlayerStats) : Resources × ResourceRates × PlayerStats :=
  upgradeList.foldl (applyEntry g) (r, ra, st)

/-- Operations that never touch the purchased flags (everything except
`loadGame` and `resetGame`). -/
def Op.keepsFlags : Op → Bool
  | .load => false
  | .reset => false
  | _ => true

section
attribute [local semireducible] Rat.add Rat.sub Rat.mul Rat.inv

theorem mem_of_findUpgrade {id : String} {u : ShipUpgrade} (h : findUpgrade id = some u) :
    u ∈ upgradeList :=
  List.mem_of_find?_eq_some h

theorem mem_upgradeList_iff {u : ShipUpgrade} :
    u ∈ upgradeList ↔
      u = shipCore ∨ u = basicAttackRange ∨ u = improvedAttackRange ∨
      u = superiorAttackRange ∨ u = basicMultiTarget ∨ u = improvedMultiTarget ∨
      u = superiorMultiTarget ∨ u = attackMastery := by
  simp [upgradeList, List.mem_cons]

/-- No catalog effect touches the resource amounts or the accrual rates: every
effect only rewrites player stats. -/
theorem effect_preserves {u : ShipUpgrade} (hu : u ∈ upgradeList) (r : Resources)
    (ra : ResourceRates) (st : PlayerStats) :
    (u.effect r ra st).1 = r ∧ (u.effect r ra st).2.1 = ra := by
  rcases mem_upgradeList_iff.mp hu with rfl | rfl | rfl | rfl | rfl | rfl | rfl | rfl <;>
    exact ⟨rfl, rfl⟩

theorem update_resources (dt : ℚ) (s : GameState) :
    (update dt s).resources =
      ⟨s.resources.metal + s.rates.metalRate * (dt / 1000),
       s.resources.crystal + s.rates.crystalRate * (dt / 1000)⟩ := by
  unfold update
  dsimp only
  split <;> rfl

theorem update_rates (dt : ℚ) (s : GameState) : (update dt s).rates = s.rates := by
  unfold update
  dsimp only
  split <;> rfl

theorem update_flags (dt : ℚ) (s : GameState) : (update dt s).flags = s.flags := by
  unfold update
  dsimp only
  split <;> rfl

theorem update_store (dt : ℚ) (s : GameState) :
    (update dt s).store = s.store ∨
      (update dt s).store =
        some ⟨(update dt s).resources, s.rates, s.playerStats, flagsList s.flags⟩ := by
  unfold update saveGame
  dsimp only
  split
  · exact Or.inr rfl
  · exact Or.inl rfl

theorem applySavedUpgrade_parts (s : GameState) (e : String × Bool) :
    (applySavedUpgrade s e).resources = s.resources ∧
    (applySavedUpgrade s e).rates = s.rates ∧
    (applySavedUpgrade s e).store = s.store ∧
    (applySavedUpgrade s e).lastSaveTime = s.lastSaveTime := by
  unfold applySavedUpgrade
  cases h : findUpgrade e.1 with
  | none => exact ⟨rfl, rfl, rfl, rfl⟩
  | some u =>
    have hp := effect_preserves (mem_of_findUpgrade h)
    cases hb : e.2 with
    | false => exact ⟨rfl, rfl, rfl, rfl⟩
    | true => exact ⟨(hp _ _ _).1, (hp _ _ _).2, rfl, rfl⟩

theorem foldl_applySavedUpgrade_parts (l : List (String × Bool)) (s : GameState) :
    (l.foldl applySavedUpgrade s).resources = s.resources ∧
    (l.foldl applySavedUpgrade s).rates = s.rates ∧
    (l.foldl applySavedUpgrade s).store = s.store ∧
    (l.foldl applySavedUpgrade s).lastSaveTime = s.lastSaveTime := by
  induction l generalizing s with
  | nil => exact ⟨rfl, rfl, rfl, rfl⟩
  | cons e t ih =>
    have h1 := applySavedUpgrade_parts s e
    have h2 := ih (applySavedUpgrade s e)
    exact ⟨h1.1 ▸ h2.1, h1.2.1 ▸ h2.2.1, h1.2.2.1 ▸ h2.2.2.1, h1.2.2.2 ▸ h2.2.2.2⟩

/-- One forEach step of `loadGame` on an entry whose id resolves to the node
itself: set the flag to the saved value and conditionally re-apply the
effect. -/
theorem applySavedUpgrade_eq (s : GameState) (u : ShipUpgrade)
    (hfind : findUpgrade u.id = some u) (b : Bool) :
    applySavedUpgrade s (u.id, b) =
      { s with
        resources := (if b then u.effect s.resources s.rates s.playerStats
          else (s.resources, s.rates, s.playerStats)).1,
        rates := (if b then u.effect s.resources s.rates s.playerStats
          else (s.resources, s.rates, s.playerStats)).2.1,
        playerStats := (if b then u.effect s.resources s.rates s.playerStats
          else (s.resources, s.rates, s.playerStats)).2.2,
        flags := u.setPurchased b s.flags } := by
  unfold applySavedUpgrade
  rw [hfind]
  cases b
  · rfl
  · rfl

theorem findUpgrade_self {u : ShipUpgrade} (hu : u ∈ upgradeList) :
    findUpgrade u.id = some u := by
  rcases mem_upgradeList_iff.mp hu with rfl | rfl | rfl | rfl | rfl | rfl | rfl | rfl <;> rfl

theorem foldl_saved_map (l : List ShipUpgrade) (g : UpgradeFlags) (s : GameState)
    (hfind : ∀ u ∈ l, findUpgrade u.id = some u) :
    (l.map (fun u => (u.id, u.getPurchased g))).foldl applySavedUpgrade s =
      { s with
        resources := (l.foldl (applyEntry g) (s.resources, s.rates, s.playerStats)).1,
        rates := (l.foldl (applyEntry g) (s.resources, s.rates, s.playerStats)).2.1,
        playerStats := (l.foldl (applyEntry g) (s.resources, s.rates, s.playerStats)).2.2,
        flags := l.foldl (fun f u => u.setPurchased (u.getPurchased g) f) s.flags } := by
  induction l generalizing s with
  | nil => rfl
  | cons u t ih =>
    rw [List.map_cons, List.foldl_cons,
      applySavedUpgrade_eq s u (hfind u (List.mem_cons_self u t)) (u.getPurchased g),
      ih _ (fun v hv => hfind v (List.mem_cons_of_mem u hv))]
    rfl

/-- What `loadGame` does on a full catalog dump (the shape `saveGame` writes):
restore the three records verbatim, install the saved flags, and re-apply the
effect of every node the snapshot marks purchased, once each, in catalog
order, on top of the restored records. -/
theorem foldl_setPurchased_full (g : UpgradeFlags) (f0 : UpgradeFlags) :
    upgradeList.foldl (fun f u => u.setPurchased (u.getPurchased g) f) f0 = g := by
  obtain ⟨a1, a2, a3, a4, a5, a6, a7, a8⟩ := g
  obtain ⟨c1, c2, c3, c4, c5, c6, c7, c8⟩ := f0
  rfl

theorem loadGame_store_eq (s : GameState) (d : SaveData) (g : UpgradeFlags)
    (hs : s.store = some d) (hg : d.upgrades = flagsList g) :
    loadGame s =
      { resources := (replayPurchasedEffects g d.resources d.rates d.playerStats).1,
        rates := (replayPurchasedEffects g d.resources d.rates d.playerStats).2.1,
        playerStats := (replayPurchasedEffects g d.resources d.rates d.playerStats).2.2,
        flags := g, lastSaveTime := s.lastSaveTime, store := some d } := by
  unfold loadGame
  rw [hs]
  dsimp only
  rw [hg]
  unfold flagsList
  rw [foldl_saved_map upgradeList g _ (fun u hu => findUpgrade_self hu)]
  unfold replayPurchasedEffects
  dsimp only
  rw [foldl_setPurchased_full]

theorem getPurchased_setPurchased_self {u : ShipUpgrade} (hu : u ∈ upgradeList)
    (b : Bool) (f : UpgradeFlags) : u.getPurchased (u.setPurchased b f) = b := by
  rcases mem_upgradeList_iff.mp hu with rfl | rfl | rfl | rfl | rfl | rfl | rfl | rfl <;> rfl

theorem getPurchased_setPurchased_true {u v : ShipUpgrade} (hu : u ∈ upgradeList)
    (hv : v ∈ upgradeList) (f : UpgradeFlags) (h : u.getPurchased f = true) :
    u.getPurchased (v.setPurchased true f) = true := by
  rcases mem_upgradeList_iff.mp hu with rfl | rfl | rfl | rfl | rfl | rfl | rfl | rfl <;>
    rcases mem_upgradeList_iff.mp hv with rfl | rfl | rfl | rfl | rfl | rfl | rfl | rfl <;>
    first | rfl | exact h

theorem flagInvB_setPurchased {u : ShipUpgrade} (hu : u ∈ upgradeList) (f : UpgradeFlags)
    (h1 : flagInvB f = true) (h2 : reqsMet f u = true) :
    flagInvB (u.setPurchased true f) = true := by
  obtain ⟨b1, b2, b3, b4, b5, b6, b7, b8⟩ := f
  rcases mem_upgradeList_iff.mp hu with rfl | rfl | rfl | rfl | rfl | rfl | rfl | rfl <;>
    revert h1 h2 <;> revert b1 b2 b3 b4 b5 b6 b7 b8 <;> decide

theorem flagInvB_iff (f : UpgradeFlags) :
    flagInvB f = true ↔
      ∀ u ∈ upgradeList, u.getPurchased f = true → ∀ rid ∈ u.requires, flagOf f rid = true := by
  constructor
  · intro h u hu hp rid hrid
    have := (List.all_eq_true.mp h) u hu
    rw [hp] at this
    simp only [Bool.not_true, Bool.false_or] at this
    exact List.all_eq_true.mp this rid hrid
  · intro h
    refine List.all_eq_true.mpr fun u hu => ?_
    cases hp : u.getPurchased f with
    | false => rfl
    | true =>
      simp only [Bool.not_true, Bool.false_or]
      exact List.all_eq_true.mpr (h u hu hp)

theorem purchaseUpgrade_none (s : GameState) (id : String) (hf : findUpgrade id = none) :
    purchaseUpgrade id s = (s, false) := by
  unfold purchaseUpgrade
  rw [hf]

theorem purchaseUpgrade_already (s : GameState) (id : String) (u : ShipUpgrade)
    (hf : findUpgrade id = some u) (hp : u.getPurchased s.flags = true) :
    purchaseUpgrade id s = (s, false) := by
  unfold purchaseUpgrade
  rw [hf]
  simp [hp]

theorem purchaseUpgrade_cases (s : GameState) (id : String) (u : ShipUpgrade)
    (hf : findUpgrade id = some u) :
    (purchaseUpgrade id s = (s, false) ∧
      ¬(u.getPurchased s.flags = false ∧ reqsMet s.flags u = true ∧
        u.cost.metal ≤ s.resources.metal ∧ u.cost.crystal ≤ s.resources.crystal)) ∨
    (purchaseUpgrade id s =
      ({ s with
          resources := (u.effect ⟨s.resources.metal - u.cost.metal,
            s.resources.crystal - u.cost.crystal⟩ s.rates s.playerStats).1,
          rates := (u.effect ⟨s.resources.metal - u.cost.metal,
            s.resources.crystal - u.cost.crystal⟩ s.rates s.playerStats).2.1,
          playerStats := (u.effect ⟨s.resources.metal - u.cost.metal,
            s.resources.crystal - u.cost.crystal⟩ s.rates s.playerStats).2.2,
          flags := u.setPurchased true s.flags }, true) ∧
      u.getPurchased s.flags = false ∧ reqsMet s.flags u = true ∧
      u.cost.metal ≤ s.resources.metal ∧ u.cost.crystal ≤ s.resources.crystal) := by
  unfold purchaseUpgrade canAffordUpgrade
  rw [hf]
  cases hp : u.getPurchased s.flags with
  | true => simp [hp]
  | false =>
    cases hr : reqsMet s.flags u with
    | false => simp [hr]
    | true =>
      by_cases h1 : u.cost.metal ≤ s.resources.metal
      · by_cases h2 : u.cost.crystal ≤ s.resources.crystal
        · right
          simp [hr, h1, h2, hp]
        · left
          simp [hr, h1, h2]
      · left
        simp [hr, h1]

theorem initialState_store : initialState.store = none := rfl

theorem step_nonneg {s : GameState} {op : Op} (hop : goodOp op = true) (h : NonNegState s) :
    NonNegState (applyOp s op) := by
  obtain ⟨hm, hc, hmr, hcr, hst⟩ := h
  cases op with
  | update dt =>
    show NonNegState (update dt s)
    have hdt : (0 : ℚ) ≤ dt := of_decide_eq_true hop
    have hds : (0 : ℚ) ≤ dt / 1000 := by positivity
    have hm2 : 0 ≤ (update dt s).resources.metal := by
      rw [update_resources]
      exact add_nonneg hm (mul_nonneg hmr hds)
    have hc2 : 0 ≤ (update dt s).resources.crystal := by
      rw [update_resources]
      exact add_nonneg hc (mul_nonneg hcr hds)
    refine ⟨hm2, hc2, ?_, ?_, ?_⟩
    · rw [update_rates]; exact hmr
    · rw [update_rates]; exact hcr
    · intro d hd
      rcases update_store dt s with he | he
      · exact hst d (he.symm.trans hd)
      · rw [he] at hd
        injection hd with h3
        subst h3
        exact ⟨hm2, hc2, hmr, hcr⟩
  | addResource k a =>
    have ha : (0 : ℚ) ≤ a := of_decide_eq_true hop
    cases k with
    | metal => exact ⟨add_nonneg hm ha, hc, hmr, hcr, hst⟩
    | crystal => exact ⟨hm, add_nonneg hc ha, hmr, hcr, hst⟩
  | purchase id =>
    show NonNegState (purchaseUpgrade id s).1
    cases hf : findUpgrade id with
    | none =>
      rw [purchaseUpgrade_none s id hf]
      exact ⟨hm, hc, hmr, hcr, hst⟩
    | some u =>
      rcases purchaseUpgrade_cases s id u hf with ⟨he, -⟩ | ⟨he, hp, hr, h1, h2⟩
      · rw [he]
        exact ⟨hm, hc, hmr, hcr, hst⟩
      · rw [he]
        have hpe := effect_preserves (mem_of_findUpgrade hf)
          ⟨s.resources.metal - u.cost.metal, s.resources.crystal - u.cost.crystal⟩
          s.rates s.playerStats
        refine ⟨?_, ?_, ?_, ?_, hst⟩
        · show 0 ≤ (u.effect _ _ _).1.metal
          rw [hpe.1]
          exact sub_nonneg.mpr h1
        · show 0 ≤ (u.effect _ _ _).1.crystal
          rw [hpe.1]
          exact sub_nonneg.mpr h2
        · show 0 ≤ (u.effect _ _ _).2.1.metalRate
          rw [hpe.2]
          exact hmr
        · show 0 ≤ (u.effect _ _ _).2.1.crystalRate
          rw [hpe.2]
          exact hcr
  | save =>
    show NonNegState (saveGame s)
    refine ⟨hm, hc, hmr, hcr, ?_⟩
    intro d hd
    injection hd with h3
    subst h3
    exact ⟨hm, hc, hmr, hcr⟩
  | load =>
    show NonNegState (loadGame s)
    cases hsto : s.store with
    | none =>
      unfold loadGame
      rw [hsto]
      exact ⟨hm, hc, hmr, hcr, hst⟩
    | some d =>
      obtain ⟨hdm, hdc, hdmr, hdcr⟩ := hst d hsto
      unfold loadGame
      rw [hsto]
      dsimp only
      have hfp := foldl_applySavedUpgrade_parts d.upgrades
        { resources := d.resources, rates := d.rates, playerStats := d.playerStats,
          flags := s.flags, lastSaveTime := s.lastSaveTime, store := some d }
      refine ⟨?_, ?_, ?_, ?_, ?_⟩
      · rw [hfp.1]; exact hdm
      · rw [hfp.1]; exact hdc
      · rw [hfp.2.1]; exact hdmr
      · rw [hfp.2.1]; exact hdcr
      · intro d2 hd2
        rw [hfp.2.2.1] at hd2
        have hd3 : some d = some d2 := hd2
        injection hd3 with h3
        subst h3
        exact ⟨hdm, hdc, hdmr, hdcr⟩
  | reset =>
    show NonNegState (resetGame s)
    have h12 : (0 : ℚ) ≤ 1 / 2 := by norm_num
    have h15 : (0 : ℚ) ≤ 1 / 5 := by norm_num
    refine ⟨le_refl 0, le_refl 0, h12, h15, ?_⟩
    intro d hd
    exact Option.noConfusion hd

theorem runOps_nonneg (ops : List Op) (s : GameState) (h : NonNegState s)
    (hops : ∀ op ∈ ops, goodOp op = true) : NonNegState (runOps s ops) := by
  induction ops generalizing s with
  | nil => exact h
  | cons op t ih =>
    exact ih (applyOp s op) (step_nonneg (hops op (List.mem_cons_self op t)) h)
      (fun o ho => hops o (List.mem_cons_of_mem op ho))

theorem initialState_nonneg : NonNegState initialState := by
  refine ⟨by decide, by decide, by decide, by decide, ?_⟩
  intro d hd
  rw [initialState_store] at hd
  exact Option.noConfusion hd

theorem step_flagInv {s : GameState} (op : Op) (h : FlagInvState s) :
    FlagInvState (applyOp s op) := by
  obtain ⟨hf, hst⟩ := h
  cases op with
  | update dt =>
    show FlagInvState (update dt s)
    constructor
    · rw [update_flags]; exact hf
    · intro d hd
      rcases update_store dt s with he | he
      · exact hst d (he.symm.trans hd)
      · rw [he] at hd
        injection hd with h3
        subst h3
        exact ⟨s.flags, rfl, hf⟩
  | addResource k a =>
    cases k with
    | metal => exact ⟨hf, hst⟩
    | crystal => exact ⟨hf, hst⟩
  | purchase id =>
    show FlagInvState (purchaseUpgrade id s).1
    cases hfind : findUpgrade id with
    | none =>
      rw [purchaseUpgrade_none s id hfind]
      exact ⟨hf, hst⟩
    | some u =>
      rcases purchaseUpgrade_cases s id u hfind with ⟨he, -⟩ | ⟨he, hp, hr, -, -⟩
      · rw [he]
        exact ⟨hf, hst⟩
      · rw [he]
        exact ⟨flagInvB_setPurchased (mem_of_findUpgrade hfind) s.flags hf hr, hst⟩
  | save =>
    show FlagInvState (saveGame s)
    refine ⟨hf, ?_⟩
    intro d hd
    injection hd with h3
    subst h3
    exact ⟨s.flags, rfl, hf⟩
  | load =>
    show FlagInvState (loadGame s)
    cases hsto : s.store with
    | none =>
      unfold loadGame
      rw [hsto]
      exact ⟨hf, hst⟩
    | some d =>
      obtain ⟨g, hg, hginv⟩ := hst d hsto
      rw [loadGame_store_eq s d g hsto hg]
      refine ⟨hginv, ?_⟩
      intro d2 hd2
      injection hd2 with h3
      subst h3
      exact ⟨g, hg, hginv⟩
  | reset =>
    show FlagInvState (resetGame s)
    have hall : flagInvB ⟨false, false, false, false, false, false, false, false⟩ = true := by
      decide
    refine ⟨hall, ?_⟩
    intro d hd
    exact Option.noConfusion hd

theorem runOps_flagInv (ops : List Op) (s : GameState) (h : FlagInvState s) :
    FlagInvState (runOps s ops) := by
  induction ops generalizing s with
  | nil => exact h
  | cons op t ih => exact ih (applyOp s op) (step_flagInv op h)

theorem initialState_flagInv : FlagInvState initialState := by
  refine ⟨by decide, ?_⟩
  intro d hd
  rw [initialState_store] at hd
  exact Option.noConfusion hd

theorem runTicks_mono (dts : List ℚ) (s : GameState) (hd : ∀ d ∈ dts, 0 ≤ d)
    (hmr : 0 ≤ s.rates.metalRate) (hcr : 0 ≤ s.rates.crystalRate) :
    s.resources.metal ≤ (runTicks dts s).resources.metal ∧
    s.resources.crystal ≤ (runTicks dts s).resources.crystal := by
  induction dts generalizing s with
  | nil => exact ⟨le_refl _, le_refl _⟩
  | cons d t ih =>
    have hd0 : (0 : ℚ) ≤ d := hd d (List.mem_cons_self d t)
    have hds : (0 : ℚ) ≤ d / 1000 := by positivity
    have hsm : s.resources.metal ≤ (update d s).resources.metal := by
      rw [update_resources]
      have := mul_nonneg hmr hds
      exact le_add_of_nonneg_right this
    have hsc : s.resources.crystal ≤ (update d s).resources.crystal := by
      rw [update_resources]
      have := mul_nonneg hcr hds
      exact le_add_of_nonneg_right this
    have hrest := ih (update d s) (fun x hx => hd x (List.mem_cons_of_mem d hx))
      (by rw [update_rates]; exact hmr) (by rw [update_rates]; exact hcr)
    exact ⟨le_trans hsm hrest.1, le_trans hsc hrest.2⟩

/-- Claim C1, counterexample: from the initial state, the single core operation
addResource(metal, -1000) drives the metal amount to -500 < 0, so the
non-negativity invariant does not hold over all core-operation sequences. -/
theorem resource_negative_reachable :
    (runOps initialState [Op.addResource ResourceKind.metal (-1000)]).resources.metal < 0 := by
  decide

/-- Claim C1 (amended): for every sequence of core operations in which every
addResource amount is non-negative and every update delta is non-negative,
both resource amounts stay non-negative in every reachable state. -/
theorem reachable_resources_nonneg (ops : List Op) (hops : ∀ op ∈ ops, goodOp op = true) :
    0 ≤ (runOps initialState ops).resources.metal ∧
    0 ≤ (runOps initialState ops).resources.crystal := by
  have h := runOps_nonneg ops initialState initialState_nonneg hops
  exact ⟨h.1, h.2.1⟩

theorem reachable_resources_nonneg_witness :
    0 ≤ (runOps initialState [Op.update 1000, Op.addResource ResourceKind.crystal 3,
      Op.purchase "basic_attack_range"]).resources.metal ∧
    0 ≤ (runOps initialState [Op.update 1000, Op.addResource ResourceKind.crystal 3,
      Op.purchase "basic_attack_range"]).resources.crystal :=
  reachable_resources_nonneg
    [Op.update 1000, Op.addResource ResourceKind.crystal 3, Op.purchase "basic_attack_range"]
    (by decide)

/-- Claim C2, counterexample: addResource performs no non-negativity check and
never fails: adding -1000 metal to the initial 500 leaves the ledger mutated
at -500 instead of unchanged. -/
theorem addResource_no_guard_counterexample :
    initialState.resources.metal = 500 ∧
    (addResource ResourceKind.metal (-1000) initialState).resources.metal = -500 := by
  decide

/-- Claim C2 (amended): addResource(kind, delta) adds delta to the chosen
amount unconditionally — also when the result is negative — and changes
nothing else; there is no InsufficientResources failure path. -/
theorem addResource_unconditional (s : GameState) (k : ResourceKind) (a : ℚ) :
    (addResource k a s).resources.metal
        = s.resources.metal + (if k = ResourceKind.metal then a else 0) ∧
    (addResource k a s).resources.crystal
        = s.resources.crystal + (if k = ResourceKind.crystal then a else 0) ∧
    (addResource k a s).rates = s.rates ∧
    (addResource k a s).playerStats = s.playerStats ∧
    (addResource k a s).flags = s.flags ∧
    (addResource k a s).store = s.store := by
  cases k <;> simp [addResource]

/-- Claim C3: the full purchase contract. purchase(id) returns true iff the id
resolves in the catalog to a node that is unpurchased, has all requirements
purchased and is affordable; on failure the state is exactly unchanged; on
success exactly the costs are debited, the node effect is applied to
(resources, rates, stats), the purchased flag is set, and nothing else
changes; and a second purchase of the same id fails with zero state change. -/
theorem purchaseUpgrade_contract (s : GameState) (id : String) :
    ((purchaseUpgrade id s).2 = true ↔
      ∃ u, findUpgrade id = some u ∧ u.getPurchased s.flags = false ∧
        reqsMet s.flags u = true ∧ u.cost.metal ≤ s.resources.metal ∧
        u.cost.crystal ≤ s.resources.crystal) ∧
    ((purchaseUpgrade id s).2 = false → (purchaseUpgrade id s).1 = s) ∧
    (∀ u, findUpgrade id = some u → (purchaseUpgrade id s).2 = true →
      (purchaseUpgrade id s).1.resources.metal = s.resources.metal - u.cost.metal ∧
      (purchaseUpgrade id s).1.resources.crystal = s.resources.crystal - u.cost.crystal ∧
      ((purchaseUpgrade id s).1.resources, (purchaseUpgrade id s).1.rates,
          (purchaseUpgrade id s).1.playerStats) =
        u.effect ⟨s.resources.metal - u.cost.metal, s.resources.crystal - u.cost.crystal⟩
          s.rates s.playerStats ∧
      (purchaseUpgrade id s).1.flags = u.setPurchased true s.flags ∧
      u.getPurchased (purchaseUpgrade id s).1.flags = true ∧
      (purchaseUpgrade id s).1.store = s.store ∧
      (purchaseUpgrade id s).1.lastSaveTime = s.lastSaveTime) ∧
    ((purchaseUpgrade id s).2 = true →
      purchaseUpgrade id (purchaseUpgrade id s).1 = ((purchaseUpgrade id s).1, false)) := by
  refine ⟨⟨?_, ?_⟩, ?_, ?_, ?_⟩
  · intro h2
    cases hf : findUpgrade id with
    | none =>
      rw [purchaseUpgrade_none s id hf] at h2
      simp at h2
    | some u =>
      rcases purchaseUpgrade_cases s id u hf with ⟨he, hn⟩ | ⟨he, hp, hr, h1, hc2⟩
      · rw [he] at h2
        simp at h2
      · exact ⟨u, rfl, hp, hr, h1, hc2⟩
  · rintro ⟨u, hf, hp, hr, h1, h2⟩
    rcases purchaseUpgrade_cases s id u hf with ⟨he, hn⟩ | ⟨he, -⟩
    · exact absurd ⟨hp, hr, h1, h2⟩ hn
    · rw [he]
  · intro h2
    cases hf : findUpgrade id with
    | none => rw [purchaseUpgrade_none s id hf]
    | some u =>
      rcases purchaseUpgrade_cases s id u hf with ⟨he, -⟩ | ⟨he, -⟩
      · rw [he]
      · rw [he] at h2
        simp at h2
  · intro u hf h2
    rcases purchaseUpgrade_cases s id u hf with ⟨he, -⟩ | ⟨he, hp, hr, h1, hc2⟩
    · rw [he] at h2
      simp at h2
    · have hm := effect_preserves (mem_of_findUpgrade hf)
        ⟨s.resources.metal - u.cost.metal, s.resources.crystal - u.cost.crystal⟩
        s.rates s.playerStats
      rw [he]
      dsimp only
      refine ⟨?_, ?_, rfl, rfl, ?_, rfl, rfl⟩
      · rw [hm.1]
      · rw [hm.1]
      · exact getPurchased_setPurchased_self (mem_of_findUpgrade hf) true s.flags
  · intro h2
    cases hf : findUpgrade id with
    | none =>
      rw [purchaseUpgrade_none s id hf] at h2
      simp at h2
    | some u =>
      rcases purchaseUpgrade_cases s id u hf with ⟨he, -⟩ | ⟨he, -⟩
      · rw [he] at h2
        simp at h2
      · rw [he]
        dsimp only
        exact purchaseUpgrade_already _ id u hf
          (getPurchased_setPurchased_self (mem_of_findUpgrade hf) true s.flags)

theorem purchaseUpgrade_contract_witness :
    (purchaseUpgrade "basic_attack_range" initialState).2 = true ∧
    (purchaseUpgrade "basic_attack_range" initialState).1.resources.metal
      = initialState.resources.metal - basicAttackRange.cost.metal :=
  ⟨(purchaseUpgrade_contract initialState "basic_attack_range").1.mpr
      ⟨basicAttackRange, rfl, by decide, by decide, by decide, by decide⟩,
   ((purchaseUpgrade_contract initialState "basic_attack_range").2.2.1 basicAttackRange rfl
      ((purchaseUpgrade_contract initialState "basic_attack_range").1.mpr
        ⟨basicAttackRange, rfl, by decide, by decide, by decide, by decide⟩)).1⟩

/-- Claim C4, counterexample: ship_core is purchased in the initial state, yet
canAffordUpgrade("ship_core") returns true — the source performs no
already-purchased check, contradicting the claim that canAfford is false for
a purchased node. -/
theorem canAfford_purchased_counterexample :
    flagOf initialState.flags "ship_core" = true ∧
    canAffordUpgrade "ship_core" initialState = true := by
  decide

/-- Claim C4 (amended): canAfford(id) is true iff the node exists, every id in
its requires set is purchased, and both amounts cover the cost; the node's own
purchased flag is NOT consulted, so an already-purchased node with met
requirements and funds still yields true. Unknown ids yield false, and an
unpurchased prerequisite forces false regardless of funds. -/
theorem canAffordUpgrade_amended (s : GameState) (id : String) :
    (findUpgrade id = none → canAffordUpgrade id s = false) ∧
    (∀ u, findUpgrade id = some u →
      (canAffordUpgrade id s = true ↔
        (∀ rid ∈ u.requires, flagOf s.flags rid = true) ∧
        u.cost.metal ≤ s.resources.metal ∧ u.cost.crystal ≤ s.resources.crystal)) := by
  constructor
  · intro hf
    unfold canAffordUpgrade
    rw [hf]
  · intro u hf
    unfold canAffordUpgrade
    rw [hf]
    simp [reqsMet, List.all_eq_true, and_assoc]

theorem canAffordUpgrade_amended_witness :
    canAffordUpgrade "basic_attack_range" initialState = true :=
  ((canAffordUpgrade_amended initialState "basic_attack_range").2 basicAttackRange rfl).mpr
    ⟨by decide, by decide, by decide⟩

/-- Claim C5: tick semantics — update(dt) adds exactly rate * (dt/1000) to
each amount, update(0) leaves the amounts unchanged, and over any sequence of
ticks with non-negative deltas and non-negative rates the amounts are
monotonically non-decreasing. -/
theorem update_tick_semantics (s : GameState) (dts : List ℚ)
    (hd : ∀ d ∈ dts, 0 ≤ d) (hmr : 0 ≤ s.rates.metalRate) (hcr : 0 ≤ s.rates.crystalRate) :
    (∀ (t : GameState) (dt : ℚ),
      (update dt t).resources.metal = t.resources.metal + t.rates.metalRate * (dt / 1000) ∧
      (update dt t).resources.crystal
        = t.resources.crystal + t.rates.crystalRate * (dt / 1000)) ∧
    (∀ t : GameState, (update 0 t).resources = t.resources) ∧
    (s.resources.metal ≤ (runTicks dts s).resources.metal ∧
     s.resources.crystal ≤ (runTicks dts s).resources.crystal) := by
  refine ⟨?_, ?_, runTicks_mono dts s hd hmr hcr⟩
  · intro t dt
    rw [update_resources]
    exact ⟨rfl, rfl⟩
  · intro t
    rw [update_resources]
    have h0 : (0 : ℚ) / 1000 = 0 := by norm_num
    rw [h0, mul_zero, mul_zero, add_zero, add_zero]

theorem update_tick_semantics_witness :
    initialState.resources.metal ≤ (runTicks [1000] initialState).resources.metal ∧
    initialState.resources.crystal ≤ (runTicks [1000] initialState).resources.crystal :=
  (update_tick_semantics initialState [1000] (by decide) (by decide) (by decide)).2.2

/-- Claim C6: load restores amounts/rates/stats verbatim from the snapshot and
then, for each catalog node the snapshot marks purchased, sets its flag and
replays its effect once, in catalog order, on top of the restored records. -/
theorem loadGame_replays_effects (s : GameState) (d : SaveData) (g : UpgradeFlags)
    (hs : s.store = some d) (hg : d.upgrades = flagsList g) :
    loadGame s =
      { resources := (replayPurchasedEffects g d.resources d.rates d.playerStats).1,
        rates := (replayPurchasedEffects g d.resources d.rates d.playerStats).2.1,
        playerStats := (replayPurchasedEffects g d.resources d.rates d.playerStats).2.2,
        flags := g, lastSaveTime := s.lastSaveTime, store := some d } :=
  loadGame_store_eq s d g hs hg

theorem loadGame_replays_effects_witness :
    loadGame (saveGame initialState) =
      { resources := (replayPurchasedEffects initialState.flags initialState.resources
          initialState.rates initialState.playerStats).1,
        rates := (replayPurchasedEffects initialState.flags initialState.resources
          initialState.rates initialState.playerStats).2.1,
        playerStats := (replayPurchasedEffects initialState.flags initialState.resources
          initialState.rates initialState.playerStats).2.2,
        flags := initialState.flags,
        lastSaveTime := (saveGame initialState).lastSaveTime,
        store := some ⟨initialState.resources, initialState.rates, initialState.playerStats,
          flagsList initialState.flags⟩ } :=
  loadGame_replays_effects (saveGame initialState)
    ⟨initialState.resources, initialState.rates, initialState.playerStats,
      flagsList initialState.flags⟩
    initialState.flags rfl rfl

/-- Claim C7, counterexample: ship_core starts purchased (not false) at catalog
construction, and loadGame (a core operation other than reset) reverts
basic_attack_range from purchased back to unpurchased when the stored snapshot
predates the purchase. -/
theorem purchased_flag_counterexample :
    initFlags.ship_core = true ∧
    (runOps initialState
        [Op.save, Op.purchase "basic_attack_range"]).flags.basic_attack_range = true ∧
    (runOps initialState
        [Op.save, Op.purchase "basic_attack_range", Op.load]).flags.basic_attack_range
      = false := by
  decide

/-- Claim C7 (amended): every catalog node except ship_core starts unpurchased
(ship_core starts purchased), and once a node's purchased flag is true, the
operations update, addResource, purchaseUpgrade and saveGame never make it
false again; only resetGame and loadGame (installing a snapshot that marks the
node unpurchased) can revert it. -/
theorem purchased_flag_lifecycle_amended :
    initFlags = ⟨true, false, false, false, false, false, false, false⟩ ∧
    ∀ (s : GameState) (op : Op) (u : ShipUpgrade), u ∈ upgradeList →
      Op.keepsFlags op = true → u.getPurchased s.flags = true →
      u.getPurchased (applyOp s op).flags = true := by
  refine ⟨rfl, ?_⟩
  intro s op u hu hk hp
  cases op with
  | update dt =>
    show u.getPurchased (update dt s).flags = true
    rw [update_flags]
    exact hp
  | addResource k a => cases k <;> exact hp
  | purchase id =>
    show u.getPurchased (purchaseUpgrade id s).1.flags = true
    cases hf : findUpgrade id with
    | none =>
      rw [purchaseUpgrade_none s id hf]
      exact hp
    | some v =>
      rcases purchaseUpgrade_cases s id v hf with ⟨he, -⟩ | ⟨he, -⟩
      · rw [he]
        exact hp
      · rw [he]
        dsimp only
        exact getPurchased_setPurchased_true hu (mem_of_findUpgrade hf) s.flags hp
  | save => exact hp
  | load => exact Bool.noConfusion hk
  | reset => exact Bool.noConfusion hk

theorem purchased_flag_lifecycle_amended_witness :
    shipCore.getPurchased (applyOp initialState Op.save).flags = true :=
  purchased_flag_lifecycle_amended.2 initialState Op.save shipCore
    (by simp [upgradeList]) rfl (by decide)

/-- Claim C8: in every state reachable from the initial state by core
operations, a purchased catalog node has every id in its requires set
purchased as well. -/
theorem purchase_prereq_invariant (ops : List Op) (u : ShipUpgrade) (hu : u ∈ upgradeList)
    (hp : u.getPurchased (runOps initialState ops).flags = true) :
    ∀ rid ∈ u.requires, flagOf (runOps initialState ops).flags rid = true :=
  (flagInvB_iff _).mp (runOps_flagInv ops initialState initialState_flagInv).1 u hu hp

theorem purchase_prereq_invariant_witness :
    flagOf (runOps initialState [Op.purchase "basic_multi_target"]).flags "ship_core" = true :=
  purchase_prereq_invariant [Op.purchase "basic_multi_target"] basicMultiTarget
    (by simp [upgradeList]) (by decide) "ship_core" (by decide)

/-- Claim C9, counterexample: setPlayerStat stores the value verbatim — after
setStat(autoCollectChance, 2) the probability-typed stat is 2, outside [0,1],
so the claimed clamping does not exist. -/
theorem setPlayerStat_no_clamp_counterexample :
    ¬ (setPlayerStat StatName.autoCollectChance 2
        initialState).playerStats.autoCollectChance ≤ 1 := by
  decide

/-- Claim C9 (amended): setPlayerStat stores every stat verbatim with no
clamping of any kind (probability-typed stats included) and leaves all other
stats unchanged; only the separate helper upgradeAutoCollectChance caps
autoCollectChance at 1 from above (and applies no lower bound). -/
theorem setPlayerStat_amended (s : GameState) (n : StatName) (v : ℚ) :
    getStat n (setPlayerStat n v s).playerStats = v ∧
    (∀ m : StatName, m ≠ n →
      getStat m (setPlayerStat n v s).playerStats = getStat m s.playerStats) ∧
    (∀ a : ℚ, (upgradeAutoCollectChance a s).playerStats.autoCollectChance
        = min (s.playerStats.autoCollectChance + a) 1) := by
  refine ⟨?_, ?_, ?_⟩
  · cases n <;> rfl
  · intro m hm
    cases m <;> cases n <;> first | rfl | exact absurd rfl hm
  · intro a
    unfold upgradeAutoCollectChance
    dsimp only
    rcases le_or_lt (s.playerStats.autoCollectChance + a) 1 with h | h
    · rw [if_neg (not_lt.mpr h), min_eq_left h]
    · rw [if_pos h, min_eq_right h.le]

theorem setPlayerStat_amended_witness :
    getStat StatName.autoCollectChance
      (setPlayerStat StatName.autoCollectChance 2 initialState).playerStats = 2 ∧
    getStat StatName.shipSpeed
      (setPlayerStat StatName.autoCollectChance 2 initialState).playerStats
      = getStat StatName.shipSpeed initialState.playerStats :=
  ⟨(setPlayerStat_amended initialState StatName.autoCollectChance 2).1,
   (setPlayerStat_amended initialState StatName.autoCollectChance 2).2.1 StatName.shipSpeed
     (by decide)⟩

/-- Claim C10: after construction the resource amounts are metal = 500 and
crystal = 500 for every content of the persisted store — the constructor
restores a snapshot first and then unconditionally overwrites both amounts. -/
theorem constructor_resources_500 (store : Option SaveData) :
    (mkResourceManager store).resources = ⟨500, 500⟩ := rfl

end
